import Mathlib

set_option maxHeartbeats 1000000

/-!
Shallow embedding of the m365 digital twin telemetry API.

The embedded source files:
  - api/src/index.js (src/unnamed/part_000): MQTT ingestion, point builder,
    WebSocket broadcast, REST endpoints (/api/latest, /api/series, /api/write).
  - src/index.js: the minimal ingestion entry point (no coercion, no defaults,
    no broadcast).

JavaScript dynamic values are modelled by the inductive JSValue; JS numbers by
JSNum (finite values as rationals, plus NaN and the infinities). Library calls
whose semantics the pipeline relies on (Number coercion, String coercion,
truthiness, nullish coalescing, new Date parsing, JSON.stringify) are modelled
explicitly below; the Influx client and the stores themselves stay abstract
(write/flush and query outcomes are passed in as parameters).
-/

/-- A JavaScript number: a finite value (modelled as a rational), NaN, or an
infinity. -/
inductive JSNum where
  | fin (q : ℚ)
  | nan
  | inf
  | neginf
  deriving Repr, DecidableEq

/-- Number.isFinite on the JSNum model. -/
def JSNum.isFinite : JSNum → Bool
  | .fin _ => true
  | _ => false

/-- A JavaScript value as it can appear in a parsed JSON payload or a request
body: undefined, null, booleans, numbers, strings, arrays and objects. -/
inductive JSValue where
  | undefined
  | null
  | bool (b : Bool)
  | num (x : JSNum)
  | str (s : String)
  | arr (elems : List JSValue)
  | obj (entries : List (String × JSValue))
  deriving Repr

/-- Smallest k with q * 10^k integral (up to 30), used to print rationals the
way JS prints the decimals that arise in this pipeline. -/
def ratDecExp (q : ℚ) : Option Nat :=
  (List.range 31).find? (fun k => (q * (10 : ℚ) ^ k).den = 1)

/-- Decimal rendering of a rational (exact when the denominator divides a
power of ten, which covers every literal in the source). -/
def ratDecimalString (q : ℚ) : String :=
  match ratDecExp q with
  | some 0 => toString q.num
  | some k =>
    let n := (q * (10 : ℚ) ^ k).num
    let sign := if n < 0 then "-" else ""
    let a := n.natAbs
    let ip := a / 10 ^ k
    let fp := a % 10 ^ k
    let fps := toString fp
    let pad := String.join (List.replicate (k - fps.length) "0")
    sign ++ toString ip ++ "." ++ pad ++ fps
  | none => toString q.num ++ "/" ++ toString q.den

/-- String(n) for a JS number. -/
def jsNumToString : JSNum → String
  | .fin q => ratDecimalString q
  | .nan => "NaN"
  | .inf => "Infinity"
  | .neginf => "-Infinity"

/-- JSON.stringify of a JS number: non-finite numbers serialize as null. -/
def jsNumJson : JSNum → String
  | .fin q => ratDecimalString q
  | _ => "null"

/-- trim, written structurally over the character list so concrete inputs
reduce. -/
def jsTrim (s : String) : String :=
  String.mk ((s.data.dropWhile Char.isWhitespace).reverse.dropWhile Char.isWhitespace).reverse

/-- Split a character list on a separator character. -/
def charsSplitOn (sep : Char) : List Char → List (List Char)
  | [] => [[]]
  | c :: rest =>
    let r := charsSplitOn sep rest
    if c = sep then [] :: r
    else
      match r with
      | [] => [[c]]
      | h :: t => (c :: h) :: t

/-- Split a string on a single-character separator. -/
def strSplitOnCh (sep : Char) (s : String) : List String :=
  (charsSplitOn sep s.data).map String.mk

def digitsValGo : Nat → List Char → Nat
  | acc, [] => acc
  | acc, c :: rest => digitsValGo (acc * 10 + (c.toNat - 48)) rest

/-- Parse a nonempty all-digit string to a Nat. -/
def strDigitsToNat (s : String) : Option Nat :=
  if s.data ≠ [] ∧ s.data.all Char.isDigit then some (digitsValGo 0 s.data) else none

/-- Drop the first character of a string. -/
def strTail (s : String) : String :=
  String.mk s.data.tail

/-- toLowerCase. -/
def jsToLowerCase (s : String) : String :=
  String.mk (s.data.map Char.toLower)

mutual

/-- String(v): JS ToString. The Bool flag marks array-join position, where
undefined and null render as the empty string instead of their names. -/
def jsToStringAux : Bool → JSValue → String
  | inArr, .undefined => if inArr then "" else "undefined"
  | inArr, .null => if inArr then "" else "null"
  | _, .bool b => if b then "true" else "false"
  | _, .num x => jsNumToString x
  | _, .str s => s
  | _, .arr xs => joinElems xs
  | _, .obj _ => "[object Object]"

def joinElems : List JSValue → String
  | [] => ""
  | [x] => jsToStringAux true x
  | x :: y :: xs => jsToStringAux true x ++ "," ++ joinElems (y :: xs)

end

/-- String(v) at top level. -/
def jsToStringValue (v : JSValue) : String :=
  jsToStringAux false v

/-- Parse an unsigned decimal with optional fraction, as in the JS Number
grammar (exponents and hex forms are outside this model). -/
def parseSignMag (s : String) : Option ℚ :=
  match strSplitOnCh '.' s with
  | [a] => (strDigitsToNat a).map (fun n => (n : ℚ))
  | [a, b] =>
    match strDigitsToNat a, strDigitsToNat b with
    | some n, some f => some ((n : ℚ) + (f : ℚ) / ((10 : ℚ) ^ b.length))
    | _, _ => none
  | _ => none

/-- Number(s) for a string: trimmed empty coerces to 0, Infinity forms to the
infinities, decimal numerals to their value, anything else to NaN. -/
def parseJSNumber (s : String) : JSNum :=
  let t := jsTrim s
  if t = "" then .fin 0
  else if t = "Infinity" ∨ t = "+Infinity" then .inf
  else if t = "-Infinity" then .neginf
  else if t.data.head? = some '-' then
    match parseSignMag (strTail t) with
    | some q => .fin (-q)
    | none => .nan
  else if t.data.head? = some '+' then
    match parseSignMag (strTail t) with
    | some q => .fin q
    | none => .nan
  else
    match parseSignMag t with
    | some q => .fin q
    | none => .nan

/-- Number(v): the JS ToNumber coercion. undefined is NaN, null is 0, booleans
are 0/1, strings parse by the numeric grammar, arrays coerce through their
joined string, plain objects are NaN. -/
def jsToNumber : JSValue → JSNum
  | .undefined => .nan
  | .null => .fin 0
  | .bool b => .fin (if b then 1 else 0)
  | .num x => x
  | .str s => parseJSNumber s
  | .arr xs => parseJSNumber (joinElems xs)
  | .obj _ => .nan

/-- toNum from api/src/index.js: const n = Number(v); return
Number.isFinite(n) ? n : 0. -/
def toNum (v : JSValue) : JSNum :=
  let n := jsToNumber v
  if n.isFinite then n else .fin 0

/-- JS truthiness of a value. -/
def truthy : JSValue → Bool
  | .undefined => false
  | .null => false
  | .bool b => b
  | .num (.fin q) => decide (q ≠ 0)
  | .num .nan => false
  | .num .inf => true
  | .num .neginf => true
  | .str s => s ≠ ""
  | .arr _ => true
  | .obj _ => true

/-- The nullish-coalescing operator v ?? dflt. -/
def jsNullishOr (v dflt : JSValue) : JSValue :=
  match v with
  | .undefined => dflt
  | .null => dflt
  | _ => v

/-- Property access obj.k on a JSON-parsed value: a lookup on objects (last
duplicate key wins, as JSON.parse retains the last), undefined on every
non-object. Access on null or undefined throws and is handled at each call
site that performs it. -/
def jget (v : JSValue) (k : String) : JSValue :=
  match v with
  | .obj kvs =>
    match kvs.reverse.find? (fun kv => kv.1 == k) with
    | some kv => kv.2
    | none => .undefined
  | _ => .undefined

/-- Escape a character for a JSON string literal. -/
def jsonQuoteChar (c : Char) : String :=
  if c = '\"' then "\\\"" else if c = '\\' then "\\\\" else String.mk [c]

/-- JSON string literal for s. -/
def jsonQuote (s : String) : String :=
  "\"" ++ String.join (s.data.map jsonQuoteChar) ++ "\""

mutual

/-- JSON.stringify of a JS value (undefined only arises at top level in this
pipeline, where the JS library would yield no string; broadcast only ever
stringifies objects, so it is mapped to null here). -/
def jsonStringify : JSValue → String
  | .undefined => "null"
  | .null => "null"
  | .bool b => if b then "true" else "false"
  | .num x => jsNumJson x
  | .str s => jsonQuote s
  | .arr xs => "[" ++ stringifyList xs ++ "]"
  | .obj kvs => "\x7b" ++ stringifyEntries kvs ++ "\x7d"

def stringifyList : List JSValue → String
  | [] => ""
  | [x] => jsonStringify x
  | x :: y :: xs => jsonStringify x ++ "," ++ stringifyList (y :: xs)

def stringifyEntries : List (String × JSValue) → String
  | [] => ""
  | [kv] => jsonQuote kv.1 ++ ":" ++ jsonStringify kv.2
  | kv :: kw :: rest => jsonQuote kv.1 ++ ":" ++ jsonStringify kv.2 ++ "," ++ stringifyEntries (kw :: rest)

end

/-- Gregorian leap year. -/
def isLeap (y : Nat) : Bool :=
  (y % 4 = 0 ∧ y % 100 ≠ 0) ∨ y % 400 = 0

/-- Month lengths for a (non-)leap year. -/
def monthDays (leap : Bool) : List Nat :=
  [31, if leap then 29 else 28, 31, 30, 31, 30, 31, 31, 30, 31, 30, 31]

/-- Days from the first of the year to the first of month m (1-based). -/
def daysBeforeMonth (leap : Bool) (m : Nat) : Nat :=
  ((monthDays leap).take (m - 1)).foldl (· + ·) 0

/-- Days from 1970-01-01 to y-01-01 (y at least 1970). -/
def daysBeforeYear (y : Nat) : Nat :=
  (List.range (y - 1970)).foldl
    (fun a i => a + (if isLeap (1970 + i) then 366 else 365)) 0

/-- Parse a fixed-width unsigned decimal. -/
def parseNatLen (len : Nat) (s : String) : Option Nat :=
  if s.length = len then strDigitsToNat s else none

/-- Parse the YYYY-MM-DD part of an ISO-8601 timestamp (years 1970..9999). -/
def parseDateYMD (s : String) : Option (Nat × Nat × Nat) :=
  match strSplitOnCh '-' s with
  | [ys, ms, ds] =>
    match parseNatLen 4 ys, parseNatLen 2 ms, parseNatLen 2 ds with
    | some y, some m, some d =>
      if 1970 ≤ y ∧ 1 ≤ m ∧ m ≤ 12 ∧ 1 ≤ d ∧ d ≤ (monthDays (isLeap y)).getD (m - 1) 0
      then some (y, m, d) else none
    | _, _, _ => none
  | _ => none

/-- Parse the HH:MM:SS(.mmm)? part of an ISO-8601 timestamp, with an optional
trailing Z (times without an offset are read as UTC, matching the deployment
the comments in the source describe). -/
def parseTimeHMSms (s : String) : Option (Nat × Nat × Nat × Nat) :=
  let core := if s.data.getLast? = some 'Z' then String.mk s.data.dropLast else s
  let parts := strSplitOnCh '.' core
  let hmsOpt : Option (String × Nat) :=
    match parts with
    | [a] => some (a, 0)
    | [a, b] => (parseNatLen 3 b).map (fun msv => (a, msv))
    | _ => none
  match hmsOpt with
  | none => none
  | some (hms, msv) =>
    match strSplitOnCh ':' hms with
    | [hs, mins, secs] =>
      match parseNatLen 2 hs, parseNatLen 2 mins, parseNatLen 2 secs with
      | some h, some mi, some ssv =>
        if h ≤ 23 ∧ mi ≤ 59 ∧ ssv ≤ 59 then some (h, mi, ssv, msv) else none
      | _, _, _ => none
    | _ => none

/-- Epoch milliseconds for a broken-down UTC time. -/
def epochMillis (y m d h mi s ms : Nat) : Int :=
  let days := daysBeforeYear y + daysBeforeMonth (isLeap y) m + (d - 1)
  (((((days * 24 + h) * 60 + mi) * 60 + s) * 1000 + ms : Nat) : Int)

/-- Parse an ISO-8601 timestamp string to epoch milliseconds; none models an
Invalid Date. -/
def parseISOMillis (s : String) : Option Int :=
  match strSplitOnCh 'T' s with
  | [d] => (parseDateYMD d).map (fun ymd => epochMillis ymd.1 ymd.2.1 ymd.2.2 0 0 0 0)
  | [d, t] =>
    match parseDateYMD d, parseTimeHMSms t with
    | some ymd, some hmsm =>
      some (epochMillis ymd.1 ymd.2.1 ymd.2.2 hmsm.1 hmsm.2.1 hmsm.2.2.1 hmsm.2.2.2)
    | _, _ => none
  | _ => none

/-- Truncation toward zero of a rational, as JS ToInteger does for Date. -/
def ratTrunc (q : ℚ) : Int :=
  if 0 ≤ q then ⌊q⌋ else ⌈q⌉

/-- new Date(v): epoch milliseconds when the argument yields a valid time,
none for an Invalid Date. null and booleans coerce through ToNumber; finite
numbers are epoch milliseconds; strings go through the ISO parser. -/
def parseDateMillis : JSValue → Option Int
  | .undefined => none
  | .null => some 0
  | .bool b => some (if b then 1 else 0)
  | .num (.fin q) => some (ratTrunc q)
  | .num _ => none
  | .str s => parseISOMillis (jsTrim s)
  | .arr xs => parseISOMillis (joinElems xs)
  | .obj _ => none

/-- An Influx write point as the pipeline constructs it: measurement name,
tags, float fields, string fields, and the optional explicit timestamp.
For the timestamp, none means no timestamp was set (the store assigns
ingestion time); some none models p.timestamp(new Date(...)) with an Invalid
Date; some (some ms) a valid explicit time in epoch milliseconds. Tag and
float-field values are kept as the raw JS values handed to the client, since
the minimal entry point passes them through without conversion. -/
structure Point where
  measurement : String
  tags : List (String × JSValue)
  floatFields : List (String × JSValue)
  stringFields : List (String × String)
  ts : Option (Option Int)
  deriving Repr

/-- The write API is opened with second precision; a point's explicit
timestamp is floored to whole seconds on write. -/
def pointWriteSeconds (p : Point) : Option (Option Int) :=
  p.ts.map (fun d => d.map (fun ms => Int.fdiv ms 1000))

/-- The fixed channel set of the ingestion point builder, in source order. -/
def ingestChannels : List String :=
  ["u_batt_v", "i_batt_a", "t_batt_c", "t_ctrl_c", "speed_kmh", "ax_ms2", "ay_ms2", "az_ms2"]

/-- The MQTT-ingestion point builder of api/src/index.js (the body of the try
block guarding the Influx write): tag device_id as String(obj.device_id ??
"unknown"), one float field per channel via toNum, string field fw_src via
String(obj.fw_src ?? "unknown"), and the timestamp set to new Date(obj.ts)
exactly when obj.ts is truthy. Property access on a null payload throws a
TypeError that the surrounding catch swallows, so no point is built then. -/
def buildIngestCore (obj : JSValue) : Point :=
  { measurement := "scooter"
    tags := [("device_id", .str (jsToStringValue (jsNullishOr (jget obj "device_id") (.str "unknown"))))]
    floatFields := ingestChannels.map (fun c => (c, .num (toNum (jget obj c))))
    stringFields := [("fw_src", jsToStringValue (jsNullishOr (jget obj "fw_src") (.str "unknown")))]
    ts := if truthy (jget obj "ts") then some (parseDateMillis (jget obj "ts")) else none }

/-- The guard of the ingestion builder: property access on a null payload
throws, so only non-nullish payloads yield a point. -/
def buildIngestPoint : JSValue → Option Point
  | .null => none
  | .undefined => none
  | obj => some (buildIngestCore obj)

/-- The per-channel defaults of the POST /api/write point builder. -/
def apiWriteDefaults : List (String × ℚ) :=
  [("u_batt_v", 40.1), ("i_batt_a", 1.1), ("t_batt_c", 25.0), ("t_ctrl_c", 27.0),
   ("speed_kmh", 18.0), ("ax_ms2", 0.1), ("ay_ms2", 0.0), ("az_ms2", 9.8)]

/-- The POST /api/write point builder of api/src/index.js: like the ingestion
builder, but the device_id default is the string "test", fw_src defaults to
"api", and each channel has its own numeric default behind the nullish
coalescing before toNum. -/
def buildApiWritePoint (d : JSValue) : Point :=
  { measurement := "scooter"
    tags := [("device_id", .str (jsToStringValue (jsNullishOr (jget d "device_id") (.str "test"))))]
    floatFields := apiWriteDefaults.map
      (fun cd => (cd.1, .num (toNum (jsNullishOr (jget d cd.1) (.num (.fin cd.2))))))
    stringFields := [("fw_src", jsToStringValue (jsNullishOr (jget d "fw_src") (.str "api")))]
    ts := if truthy (jget d "ts") then some (parseDateMillis (jget d "ts")) else none }

/-- The point builder of the minimal entry point src/index.js: raw values, no
toNum coercion, no defaults, no fw_src, no explicit timestamp. Property access
on a null payload throws, caught by the handler's try block. -/
def buildMinimalCore (data : JSValue) : Point :=
  { measurement := "scooter"
    tags := [("device_id", jget data "device_id")]
    floatFields := ingestChannels.map (fun c => (c, jget data c))
    stringFields := []
    ts := none }

/-- The guard of the minimal builder, as for the ingestion builder. -/
def buildMinimalPoint : JSValue → Option Point
  | .null => none
  | .undefined => none
  | data => some (buildMinimalCore data)

/-- A connected WebSocket viewer: its readyState (1 is OPEN) and whether its
send call throws. -/
structure Viewer where
  readyState : Nat
  sendFails : Bool
  deriving Repr, DecidableEq

/-- The broadcast function of api/src/index.js: serialize the object once,
then for each client of wss.clients send the string when readyState is 1,
inside a try/catch that swallows a failing send. The result pairs the
serialized string with the per-viewer deliveries (none where nothing was
delivered). -/
def broadcast (clients : List Viewer) (obj : JSValue) : String × List (Option String) :=
  let s := jsonStringify obj
  (s, clients.map (fun ws => if ws.readyState = 1 ∧ ws.sendFails = false then some s else none))

/-- The live envelope broadcast per decoded record. -/
def telemetryEnvelope (obj : JSValue) : JSValue :=
  .obj [("type", .str "telemetry"), ("data", obj)]

/-- Observable effects of one MQTT message: the broadcast (none when broadcast
was never called) and the points handed to writeApi.writePoint. -/
structure MsgEffects where
  broadcastSent : Option (String × List (Option String))
  writes : List Point
  deriving Repr

/-- The MQTT message handler of api/src/index.js. The parsed argument is the
outcome of JSON.parse on the payload (none on a parse failure, where the
handler returns at once). On success it broadcasts the telemetry envelope to
all clients, then, when WRITE_TO_INFLUX lower-cases to "true", builds and
writes one point inside a try/catch. -/
def onMessage (writeToInflux : String) (clients : List Viewer) (parsed : Option JSValue) : MsgEffects :=
  match parsed with
  | none => { broadcastSent := none, writes := [] }
  | some obj =>
    let b := broadcast clients (telemetryEnvelope obj)
    if jsToLowerCase writeToInflux = "true" then
      match buildIngestPoint obj with
      | some p => { broadcastSent := some b, writes := [p] }
      | none => { broadcastSent := some b, writes := [] }
    else { broadcastSent := some b, writes := [] }

/-- The MQTT message handler of the minimal entry point src/index.js: the
whole body sits in one try/catch, there is no broadcast, and a parse failure
or a throwing point construction writes nothing. -/
def minimalOnMessage (parsed : Option JSValue) : List Point :=
  match parsed with
  | none => []
  | some d =>
    match buildMinimalPoint d with
    | some p => [p]
    | none => []

/-- An HTTP response as the endpoints produce it: res.json(body) with the
default 200 status, or res.status(500).json with an error message. -/
inductive HttpResponse where
  | ok200 (body : JSValue)
  | err500 (msg : String)
  deriving Repr

/-- Observable effects of one POST /api/write request: the points handed to
writeApi.writePoint, whether flush was awaited, and the response. -/
structure WriteResult where
  wrote : List Point
  flushCalled : Bool
  response : HttpResponse
  deriving Repr

/-- The POST /api/write handler of api/src/index.js: take d = req.body or an
empty object when the body is falsy, build the point, writePoint it, await
flush, and respond 200 with the ok body; any throw along the way (modelled by
the flush outcome, the only fallible step for this builder) is caught and
answered 500 with String(e). -/
def apiWrite (body : JSValue) (flushResult : Except String Unit) : WriteResult :=
  let d := if truthy body then body else .obj []
  let p := buildApiWritePoint d
  match flushResult with
  | .ok _ => { wrote := [p], flushCalled := true, response := .ok200 (.obj [("ok", .bool true)]) }
  | .error e => { wrote := [p], flushCalled := true, response := .err500 e }

/-- One row of the flux result of the latest-by-device query: a field name,
its last value, and its time column. -/
structure FluxRow where
  fieldName : String
  value : JSValue
  time : String
  deriving Repr

/-- JS object property assignment m[k] = v: overwrite in place when the key
exists, append otherwise (JS objects keep the original insertion position on
re-assignment). -/
def upsert : List (String × JSValue) → String → JSValue → List (String × JSValue)
  | [], k, v => [(k, v)]
  | kv :: rest, k, v => if kv.1 = k then (k, v) :: rest else kv :: upsert rest k v

/-- Property lookup on the assembled object. -/
def lookupKV : List (String × JSValue) → String → Option JSValue
  | [], _ => none
  | kv :: rest, k => if kv.1 = k then some kv.2 else lookupKV rest k

/-- One iteration of the row-merging loop of GET /api/latest/:deviceId:
latest[row field] = row value, then latest.ts = row time. -/
def latestStep (latest : List (String × JSValue)) (r : FluxRow) : List (String × JSValue) :=
  upsert (upsert latest r.fieldName r.value) "ts" (.str r.time)

/-- The row-merging loop of GET /api/latest/:deviceId: start from
latest = (device_id: deviceId) and iterate latestStep over the rows. -/
def latestMerge (deviceId : String) (rows : List FluxRow) : List (String × JSValue) :=
  rows.foldl latestStep [("device_id", .str deviceId)]

/-- The GET /api/latest/:deviceId handler: the query outcome is passed in; a
successful query merges the rows and answers 200, a failing one answers 500
with the stringified error. -/
def apiLatest (deviceId : String) (queryResult : Except String (List FluxRow)) : HttpResponse :=
  match queryResult with
  | .ok rows => .ok200 (.obj (latestMerge deviceId rows))
  | .error e => .err500 e

/-- Query parameters of GET /api/series/:deviceId as express delivers them
(none when absent). -/
structure SeriesReq where
  range : Option String
  fields : Option String
  deriving Repr

/-- req.query.range or "60m": JS or-defaulting on the raw string. -/
def seriesRangeUsed (req : SeriesReq) : String :=
  match req.range with
  | some s => if s ≠ "" then s else "60m"
  | none => "60m"

/-- The field-list computation of GET /api/series/:deviceId: or-default the
raw string, split on commas, trim, drop empties. -/
def seriesFieldsUsed (req : SeriesReq) : List String :=
  let raw :=
    match req.fields with
    | some s => if s ≠ "" then s else "u_batt_v,i_batt_a,speed_kmh"
    | none => "u_batt_v,i_batt_a,speed_kmh"
  ((strSplitOnCh ',' raw).map jsTrim).filter (fun f => f ≠ "")

/-- One stored sample as the flux query of the series endpoint sees it. -/
structure StoreRow where
  meas : String
  device : String
  fieldName : String
  value : ℚ
  time : Int
  deriving Repr, DecidableEq

/-- The filter stage of the flux pipeline the series endpoint issues: the
scooter measurement, the requested device and fields, within the range window
(cutoff is the resolved start of the window). -/
def fluxSeriesFilter (bucket : List StoreRow) (deviceId : String) (fields : List String) (cutoff : Int) : List StoreRow :=
  bucket.filter
    (fun r => r.meas = "scooter" ∧ r.device = deviceId ∧ r.fieldName ∈ fields ∧ cutoff ≤ r.time)

/-- Lexicographic byte order on character lists, the order in which flux
emits tables of a grouped stream (ascending group key). -/
def charsLe : List Char → List Char → Bool
  | [], _ => true
  | _ :: _, [] => false
  | a :: as, b :: bs =>
    if a.val < b.val then true
    else if b.val < a.val then false
    else charsLe as bs

/-- Lexicographic order on field names. -/
def strFieldLe (a b : String) : Bool :=
  charsLe a.data b.data

/-- The distinct field values present in the filtered stream, in ascending
order: after keep(columns: ["_time","_value","_field"]) the group key is
reduced to the _field column, so the stream holds one table per present
field, emitted in ascending group-key order. -/
def seriesTables (filtered : List StoreRow) : List String :=
  List.insertionSort (fun a b => strFieldLe a b = true) (filtered.map StoreRow.fieldName).dedup

/-- One per-field table after sort(columns: ["_time"]): the sort runs within
each table of the grouped stream, so only this field's rows are ordered. -/
def seriesBlock (filtered : List StoreRow) (f : String) : List StoreRow :=
  List.insertionSort (fun a b => a.time ≤ b.time) (filtered.filter (fun r => r.fieldName = f))

/-- The flux pipeline the series endpoint issues, run over the bucket
contents: filter, then keep — which reduces the group key to the _field
column — then the per-table sort by _time. collectRows concatenates the
per-field tables in group-key order, so the result is a sequence of
per-field blocks, each non-decreasing in time, not one globally sorted
list. -/
def fluxSeries (bucket : List StoreRow) (deviceId : String) (fields : List String) (cutoff : Int) : List StoreRow :=
  ((seriesTables (fluxSeriesFilter bucket deviceId fields cutoff)).map
    (seriesBlock (fluxSeriesFilter bucket deviceId fields cutoff))).flatten

/-- The GET /api/series/:deviceId handler over an abstract bucket: compute the
field list, and run the query. An empty field list makes the interpolated
field filter an empty disjunction, which is a flux syntax error, so the store
rejects the query and the endpoint answers 500. -/
def apiSeries (bucket : List StoreRow) (deviceId : String) (req : SeriesReq) (cutoff : Int) :
    Except String (List StoreRow) :=
  let fields := seriesFieldsUsed req
  if fields = [] then .error "invalid flux query: empty field filter"
  else .ok (fluxSeries bucket deviceId fields cutoff)

/-- toNum always returns a finite number. -/
theorem toNum_fin (v : JSValue) : ∃ q : ℚ, toNum v = JSNum.fin q := by
  cases h : jsToNumber v with
  | fin q => exact ⟨q, by simp [toNum, h, JSNum.isFinite]⟩
  | nan => exact ⟨0, by simp [toNum, h, JSNum.isFinite]⟩
  | inf => exact ⟨0, by simp [toNum, h, JSNum.isFinite]⟩
  | neginf => exact ⟨0, by simp [toNum, h, JSNum.isFinite]⟩

/-- toNum substitutes 0 whenever Number coercion is not finite. -/
theorem toNum_zero_of_not_finite {v : JSValue} (h : (jsToNumber v).isFinite = false) :
    toNum v = JSNum.fin 0 := by
  simp [toNum, h]

/-- The ingestion builder succeeds exactly with the core record. -/
theorem buildIngestPoint_some {obj : JSValue} {p : Point}
    (h : buildIngestPoint obj = some p) : p = buildIngestCore obj := by
  cases obj <;> simp [buildIngestPoint] at h <;> exact h.symm

/-- The minimal builder succeeds exactly with its core record. -/
theorem buildMinimalPoint_some {data : JSValue} {p : Point}
    (h : buildMinimalPoint data = some p) : p = buildMinimalCore data := by
  cases data <;> simp [buildMinimalPoint] at h <;> exact h.symm

/-- C1: for every telemetry record built into a store point on the ingestion
path, every float field of the point is a finite number, and every channel of
the fixed channel set whose input is absent or does not coerce to a finite
number is written as exactly 0. -/
theorem c1_ingest_coercion (obj : JSValue) (p : Point)
    (hp : buildIngestPoint obj = some p) :
    (∀ c v, (c, v) ∈ p.floatFields → ∃ q : ℚ, v = JSValue.num (JSNum.fin q)) ∧
    (∀ c, c ∈ ingestChannels →
      (jget obj c = JSValue.undefined ∨ (jsToNumber (jget obj c)).isFinite = false) →
      (c, JSValue.num (JSNum.fin 0)) ∈ p.floatFields) := by
  have hcore := buildIngestPoint_some hp
  subst hcore
  constructor
  · intro c v hv
    simp only [buildIngestCore, List.mem_map] at hv
    obtain ⟨c2, hc2, hpair⟩ := hv
    obtain ⟨q, hq⟩ := toNum_fin (jget obj c2)
    cases hpair
    exact ⟨q, by rw [hq]⟩
  · intro c hc hz
    have hzero : toNum (jget obj c) = JSNum.fin 0 := by
      rcases hz with h | h
      · apply toNum_zero_of_not_finite
        rw [h]
        rfl
      · exact toNum_zero_of_not_finite h
    simp only [buildIngestCore, List.mem_map]
    exact ⟨c, hc, by rw [hzero]⟩

/-- A record whose u_batt_v is the non-numeric string "abc" and whose other
channels are absent. -/
def c1obj : JSValue :=
  .obj [("device_id", .str "m365-01"), ("u_batt_v", .str "abc")]

/-- C1 witness: the non-numeric u_batt_v and the absent speed_kmh are both
written as exactly 0 for a concrete record. -/
theorem c1_ingest_coercion_witness :
    ("u_batt_v", JSValue.num (JSNum.fin 0)) ∈ (buildIngestCore c1obj).floatFields ∧
    ("speed_kmh", JSValue.num (JSNum.fin 0)) ∈ (buildIngestCore c1obj).floatFields := by
  have h := c1_ingest_coercion c1obj (buildIngestCore c1obj) rfl
  exact ⟨h.2 "u_batt_v" (by decide) (Or.inr (by rfl)), h.2 "speed_kmh" (by decide) (Or.inl (by rfl))⟩

/-- C2: a bus message whose payload fails JSON parsing produces no broadcast,
no store write, and no telemetry record, in both the main entry point and the
minimal one. -/
theorem c2_parse_failure_no_effects (w : String) (clients : List Viewer) :
    onMessage w clients none = { broadcastSent := none, writes := [] } ∧
    minimalOnMessage none = [] :=
  ⟨rfl, rfl⟩

/-- C10: a latest-value query that returns zero rows yields a 200 response
whose body is exactly the one-key object carrying the requested device id:
no ts key, no field keys, no error. -/
theorem c10_latest_no_rows (deviceId : String) :
    apiLatest deviceId (.ok []) = .ok200 (.obj [("device_id", .str deviceId)]) :=
  rfl

/-- A record carrying ts = 0: a value that parses as an absolute point in
time (the epoch), which the claim says must be used as the point's
timestamp. -/
def c3obj : JSValue :=
  .obj [("device_id", .str "m365-01"), ("ts", .num (.fin 0))]

/-- C3 counterexample: the source gates the timestamp on JS truthiness of ts,
not on its parsability. For the record with ts = 0, new Date(0) is the valid
epoch instant, yet the built point carries no explicit timestamp (the store
assigns ingestion time instead of the carried value), refuting the claim as
stated. -/
theorem c3_ts_counterexample :
    (buildIngestPoint c3obj).map Point.ts = some none ∧
    parseDateMillis (jget c3obj "ts") = some 0 := by
  constructor <;> rfl

/-- C3 (amended): on both point-building paths the timestamp is governed by
JS truthiness of ts: when ts is truthy, new Date(ts) becomes the point's
timestamp — floored to whole seconds by the second-precision writer, and kept
even when ts does not parse, as an invalid timestamp rather than ingestion
time; when ts is absent or falsy (so also for the parsable 0), no timestamp
is set and the current ingestion time is used. -/
theorem c3_ts_amended (obj d : JSValue) (p : Point)
    (hp : buildIngestPoint obj = some p) :
    (p.ts = if truthy (jget obj "ts") then some (parseDateMillis (jget obj "ts")) else none) ∧
    (pointWriteSeconds p =
      if truthy (jget obj "ts")
      then some ((parseDateMillis (jget obj "ts")).map (fun ms => Int.fdiv ms 1000))
      else none) ∧
    ((buildApiWritePoint d).ts =
      if truthy (jget d "ts") then some (parseDateMillis (jget d "ts")) else none) := by
  have hcore := buildIngestPoint_some hp
  subst hcore
  refine ⟨rfl, ?_, rfl⟩
  by_cases h : truthy (jget obj "ts") = true
  · simp [pointWriteSeconds, buildIngestCore, h]
  · simp [pointWriteSeconds, buildIngestCore, h]

/-- A record carrying a parsable truthy ts. -/
def c3tsObj : JSValue :=
  .obj [("ts", .str "2025-09-26T12:00:01Z")]

/-- C3 amended witness: with a truthy ISO ts the built point carries exactly
that instant, floored to whole seconds by the writer. -/
theorem c3_ts_amended_witness :
    (buildIngestCore c3tsObj).ts = some (some 1758888001000) ∧
    pointWriteSeconds (buildIngestCore c3tsObj) = some (some 1758888001) := by
  have h := c3_ts_amended c3tsObj (.obj []) (buildIngestCore c3tsObj) rfl
  constructor
  · rw [h.1]; rfl
  · rw [h.2.1]; rfl

/-- C4 counterexample: a manual-write request whose body carries no device_id
is tagged with the sentinel "test", not "unknown", refuting the claim for the
manual-write point-building path. -/
theorem c4_device_id_counterexample :
    (buildApiWritePoint (.obj [])).tags = [("device_id", JSValue.str "test")] ∧
    "test" ≠ "unknown" := by
  refine ⟨rfl, ?_⟩
  decide

/-- C4 (amended): the default for an absent device_id differs per path: the
main bus-ingestion builder tags the sentinel "unknown", the manual-write
builder tags the sentinel "test", and the minimal entry point applies no
default at all, passing the raw (absent) value through to the client. -/
theorem c4_device_id_amended (obj d m : JSValue) (p pm : Point)
    (hp : buildIngestPoint obj = some p)
    (hno : jget obj "device_id" = JSValue.undefined ∨ jget obj "device_id" = JSValue.null)
    (hnd : jget d "device_id" = JSValue.undefined ∨ jget d "device_id" = JSValue.null)
    (hm : buildMinimalPoint m = some pm) :
    p.tags = [("device_id", JSValue.str "unknown")] ∧
    (buildApiWritePoint d).tags = [("device_id", JSValue.str "test")] ∧
    pm.tags = [("device_id", jget m "device_id")] := by
  have hcore := buildIngestPoint_some hp
  subst hcore
  have hmc := buildMinimalPoint_some hm
  subst hmc
  refine ⟨?_, ?_, rfl⟩
  · simp only [buildIngestCore]
    rcases hno with h | h <;> rw [h] <;> rfl
  · simp only [buildApiWritePoint]
    rcases hnd with h | h <;> rw [h] <;> rfl

/-- C4 amended witness: concrete records with no device_id on all three
paths. -/
theorem c4_device_id_amended_witness :
    (buildIngestCore (.obj [("speed_kmh", .str "12")])).tags = [("device_id", JSValue.str "unknown")] ∧
    (buildApiWritePoint (.obj [])).tags = [("device_id", JSValue.str "test")] ∧
    (buildMinimalCore (.obj [])).tags = [("device_id", jget (.obj []) "device_id")] := by
  exact c4_device_id_amended (.obj [("speed_kmh", .str "12")]) (.obj []) (.obj [])
    (buildIngestCore (.obj [("speed_kmh", .str "12")])) (buildMinimalCore (.obj []))
    rfl (Or.inl rfl) (Or.inl rfl) rfl

/-- The handler broadcasts on every successfully decoded record, whatever the
write toggle and the outcome of the point build. -/
theorem onMessage_broadcastSent (w : String) (clients : List Viewer) (obj : JSValue) :
    (onMessage w clients (some obj)).broadcastSent =
      some (broadcast clients (telemetryEnvelope obj)) := by
  simp only [onMessage]
  split
  · cases buildIngestPoint obj <;> rfl
  · rfl

/-- Deliveries to the viewers before a given position do not depend on the
viewer at that position. -/
theorem map_take_middle (f : Viewer → Option String) (pre post : List Viewer) (ws : Viewer) :
    ((pre ++ ws :: post).map f).take pre.length = pre.map f := by
  rw [List.map_append, List.map_cons, ← List.length_map pre f]
  exact List.take_left _ _

/-- Deliveries to the viewers after a given position do not depend on the
viewer at that position. -/
theorem map_drop_middle (f : Viewer → Option String) (pre post : List Viewer) (ws : Viewer) :
    ((pre ++ ws :: post).map f).drop (pre.length + 1) = post.map f := by
  rw [List.map_append, List.map_cons]
  have h : pre.map f ++ f ws :: post.map f = (pre.map f ++ [f ws]) ++ post.map f := by
    simp
  rw [h]
  have hl : (pre.map f ++ [f ws]).length = pre.length + 1 := by
    simp
  rw [← hl]
  exact List.drop_left _ _

/-- C5: every successfully decoded record is broadcast as one serialized
envelope of shape (type: telemetry, data: record); the deliveries line up
with the client list, a viewer receives exactly that envelope precisely when
it is in ready state 1 and its send does not throw, and replacing the viewer
at any position leaves every other viewer's delivery unchanged. -/
theorem c5_broadcast_envelope (w : String) (clients : List Viewer) (obj : JSValue)
    (env : String) (ds : List (Option String))
    (h : (onMessage w clients (some obj)).broadcastSent = some (env, ds)) :
    env = jsonStringify (telemetryEnvelope obj) ∧
    ds.length = clients.length ∧
    (∀ (i : Nat) (ws : Viewer), clients[i]? = some ws →
      ds[i]? = some (if ws.readyState = 1 ∧ ws.sendFails = false then some env else none)) ∧
    (∀ pre ws ws2 post, clients = pre ++ ws :: post →
      (broadcast (pre ++ ws2 :: post) (telemetryEnvelope obj)).2.take pre.length =
        ds.take pre.length ∧
      (broadcast (pre ++ ws2 :: post) (telemetryEnvelope obj)).2.drop (pre.length + 1) =
        ds.drop (pre.length + 1)) := by
  rw [onMessage_broadcastSent] at h
  injection h with h2
  have henv : env = jsonStringify (telemetryEnvelope obj) := by
    rw [show env = (env, ds).1 from rfl, ← h2]
    rfl
  have hds : ds = clients.map
      (fun ws => if ws.readyState = 1 ∧ ws.sendFails = false
        then some (jsonStringify (telemetryEnvelope obj)) else none) := by
    rw [show ds = (env, ds).2 from rfl, ← h2]
    rfl
  subst henv
  refine ⟨rfl, ?_, ?_, ?_⟩
  · rw [hds, List.length_map]
  · intro i ws hi
    rw [hds, List.getElem?_map, hi]
    rfl
  · intro pre ws ws2 post hcl
    subst hcl
    rw [hds]
    simp only [broadcast]
    constructor
    · rw [map_take_middle, map_take_middle]
    · rw [map_drop_middle, map_drop_middle]

/-- Four concrete viewers: ready, not ready, ready but throwing, ready. -/
def c5clients : List Viewer :=
  [⟨1, false⟩, ⟨0, false⟩, ⟨1, true⟩, ⟨1, false⟩]

/-- A concrete decoded record. -/
def c5obj : JSValue :=
  .obj [("device_id", .str "m365-01"), ("fw_src", .str "emu")]

/-- C5 witness: for the concrete client list, the non-ready viewer receives
nothing and the last ready viewer receives exactly the serialized envelope. -/
theorem c5_broadcast_envelope_witness :
    (broadcast c5clients (telemetryEnvelope c5obj)).2[1]? = some none ∧
    (broadcast c5clients (telemetryEnvelope c5obj)).2[3]? =
      some (some (jsonStringify (telemetryEnvelope c5obj))) := by
  have h := c5_broadcast_envelope "true" c5clients c5obj
    (broadcast c5clients (telemetryEnvelope c5obj)).1
    (broadcast c5clients (telemetryEnvelope c5obj)).2 (by rfl)
  obtain ⟨henv, hlen, hdel, hind⟩ := h
  have h1 := hdel 1 ⟨0, false⟩ (by rfl)
  have h3 := hdel 3 ⟨1, false⟩ (by rfl)
  rw [henv] at h1 h3
  constructor
  · simpa using h1
  · simpa using h3

/-- C6: every manual-write request builds one point from the (or-defaulted)
body, hands it to the writer, and awaits flush before responding; the
response is 200 with the ok body exactly when the flush completed, and 500
carrying the error string when it failed. -/
theorem c6_api_write (body : JSValue) (f : Except String Unit) :
    (apiWrite body f).wrote = [buildApiWritePoint (if truthy body then body else .obj [])] ∧
    (apiWrite body f).flushCalled = true ∧
    ((apiWrite body f).response = .ok200 (.obj [("ok", .bool true)]) ↔ f = .ok ()) ∧
    (∀ e, f = .error e → (apiWrite body f).response = .err500 e) := by
  cases f with
  | ok u => exact ⟨rfl, rfl, ⟨fun _ => rfl, fun _ => rfl⟩, fun e he => by cases he⟩
  | error e =>
    refine ⟨rfl, rfl, ⟨fun h => ?_, fun h => ?_⟩, fun e2 he => ?_⟩
    · exact absurd h (by simp [apiWrite])
    · cases h
    · cases he
      rfl

/-- C6 witness: a failing flush on an empty body yields the 500 error
response, and a succeeding flush the 200 ok response, both after the write
and the flush. -/
theorem c6_api_write_witness :
    (apiWrite (.obj []) (.error "flush failed")).response = .err500 "flush failed" ∧
    (apiWrite (.obj []) (.ok ())).response = .ok200 (.obj [("ok", .bool true)]) ∧
    (apiWrite (.obj []) (.error "flush failed")).flushCalled = true := by
  refine ⟨?_, ?_, ?_⟩
  · exact (c6_api_write (.obj []) (.error "flush failed")).2.2.2 "flush failed" rfl
  · exact (c6_api_write (.obj []) (.ok ())).2.2.1.2 rfl
  · exact (c6_api_write (.obj []) (.error "flush failed")).2.1

/-- C9: the broadcast to live viewers is the same whatever the value of the
WRITE_TO_INFLUX toggle; the toggle decides only whether the decoded record is
written to the store. -/
theorem c9_toggle_only_writes (w1 w2 : String) (clients : List Viewer) (parsed : Option JSValue) :
    (onMessage w1 clients parsed).broadcastSent = (onMessage w2 clients parsed).broadcastSent ∧
    (∀ obj, parsed = some obj →
      (onMessage w1 clients parsed).writes =
        if jsToLowerCase w1 = "true" then (buildIngestPoint obj).toList else []) := by
  cases parsed with
  | none => exact ⟨rfl, fun obj h => by cases h⟩
  | some obj =>
    constructor
    · rw [onMessage_broadcastSent, onMessage_broadcastSent]
    · intro obj2 h
      cases h
      simp only [onMessage]
      split
      · rcases hb : buildIngestPoint obj with _ | p <;> simp [hb]
      · rfl

/-- C9 witness: with the toggle off the record is broadcast but not written;
with it on the same record is also written. -/
theorem c9_toggle_only_writes_witness :
    (onMessage "false" c5clients (some c1obj)).broadcastSent =
      (onMessage "true" c5clients (some c1obj)).broadcastSent ∧
    (onMessage "false" c5clients (some c1obj)).writes = [] := by
  have h := c9_toggle_only_writes "false" "true" c5clients (some c1obj)
  refine ⟨h.1, ?_⟩
  rw [h.2 c1obj rfl]
  rfl

/-- Looking up the key just assigned yields the assigned value. -/
theorem lookupKV_upsert_self (m : List (String × JSValue)) (k : String) (v : JSValue) :
    lookupKV (upsert m k v) k = some v := by
  induction m with
  | nil => simp [upsert, lookupKV]
  | cons kv rest ih =>
    by_cases h : kv.1 = k
    · simp [upsert, lookupKV, h]
    · simp [upsert, lookupKV, h, ih]

/-- Assigning one key leaves every other key's lookup unchanged. -/
theorem lookupKV_upsert_other (m : List (String × JSValue)) (k k2 : String) (v : JSValue)
    (hne : k2 ≠ k) : lookupKV (upsert m k v) k2 = lookupKV m k2 := by
  induction m with
  | nil => simp [upsert, lookupKV, Ne.symm hne]
  | cons kv rest ih =>
    by_cases h : kv.1 = k
    · simp [upsert, lookupKV, h, Ne.symm hne]
    · simp only [upsert, lookupKV, if_neg h]
      by_cases h2 : kv.1 = k2
      · simp [lookupKV, h2]
      · simp [lookupKV, h2, ih]

/-- Rows that never mention a key (other than ts) leave its lookup in the
merged object unchanged. -/
theorem lookupKV_fold_preserve :
    ∀ (rows : List FluxRow) (m : List (String × JSValue)) (k : String),
      k ∉ rows.map FluxRow.fieldName → k ≠ "ts" →
      lookupKV (rows.foldl latestStep m) k = lookupKV m k := by
  intro rows
  induction rows with
  | nil => intro m k _ _; rfl
  | cons r rs ih =>
    intro m k hk hts
    rw [List.map_cons] at hk
    have h1 : k ≠ r.fieldName := fun he => hk (by rw [he]; exact List.mem_cons_self _ _)
    have h2 : k ∉ rs.map FluxRow.fieldName := fun hm => hk (List.mem_cons_of_mem _ hm)
    rw [List.foldl_cons, ih _ k h2 hts]
    unfold latestStep
    rw [lookupKV_upsert_other _ _ _ _ hts, lookupKV_upsert_other _ _ _ _ h1]

/-- After the merge loop, ts holds the time of the last row iterated. -/
theorem lookupKV_fold_ts (rest : List FluxRow) (r : FluxRow) (m : List (String × JSValue)) :
    lookupKV ((rest ++ [r]).foldl latestStep m) "ts" = some (.str r.time) := by
  rw [List.foldl_append, List.foldl_cons, List.foldl_nil]
  unfold latestStep
  exact lookupKV_upsert_self _ _ _

/-- After the merge loop over rows with pairwise-distinct field names none of
which is the literal ts, each row's field key holds that row's value. -/
theorem lookupKV_fold_field (rows : List FluxRow) (m : List (String × JSValue)) (r : FluxRow)
    (hmem : r ∈ rows) (hnodup : (rows.map FluxRow.fieldName).Nodup)
    (hts : "ts" ∉ rows.map FluxRow.fieldName) :
    lookupKV (rows.foldl latestStep m) r.fieldName = some r.value := by
  obtain ⟨l1, l2, rfl⟩ := List.append_of_mem hmem
  have hfne : r.fieldName ≠ "ts" := by
    intro he
    exact hts (he ▸ List.mem_map_of_mem FluxRow.fieldName hmem)
  have hl2 : r.fieldName ∉ l2.map FluxRow.fieldName := by
    rw [List.map_append, List.map_cons] at hnodup
    exact (List.nodup_cons.mp (List.nodup_append.mp hnodup).2.1).1
  rw [List.foldl_append, List.foldl_cons]
  rw [lookupKV_fold_preserve l2 _ _ hl2 hfne]
  unfold latestStep
  rw [lookupKV_upsert_other _ _ _ _ hfne]
  exact lookupKV_upsert_self _ _ _

/-- C7: over any query result with one row per distinct field (no field named
ts or device_id, as none exists in the schema), the latest endpoint responds
200 with a single flat object that holds each row's value under its field
name, the device_id key, and one ts key equal to the time of the last row
iterated. -/
theorem c7_latest_flatten (deviceId : String) (rows : List FluxRow)
    (hnodup : (rows.map FluxRow.fieldName).Nodup)
    (hts : "ts" ∉ rows.map FluxRow.fieldName)
    (hdev : "device_id" ∉ rows.map FluxRow.fieldName) :
    (∀ r ∈ rows, lookupKV (latestMerge deviceId rows) r.fieldName = some r.value) ∧
    (∀ (r : FluxRow) (rest : List FluxRow), rows = rest ++ [r] →
      lookupKV (latestMerge deviceId rows) "ts" = some (.str r.time)) ∧
    lookupKV (latestMerge deviceId rows) "device_id" = some (.str deviceId) ∧
    apiLatest deviceId (.ok rows) = .ok200 (.obj (latestMerge deviceId rows)) := by
  refine ⟨?_, ?_, ?_, rfl⟩
  · intro r hr
    simp only [latestMerge]
    exact lookupKV_fold_field rows _ r hr hnodup hts
  · intro r rest hrw
    subst hrw
    simp only [latestMerge]
    exact lookupKV_fold_ts rest r _
  · simp only [latestMerge]
    rw [lookupKV_fold_preserve rows _ _ hdev (by decide)]
    rfl

/-- Two store rows with distinct fields and increasing times. -/
def c7rows : List FluxRow :=
  [⟨"u_batt_v", .num (.fin 39), "2025-09-26T12:00:00Z"⟩,
   ⟨"speed_kmh", .num (.fin 12), "2025-09-26T12:00:05Z"⟩]

/-- C7 witness: the concrete merge holds each row's value under its field
name, the device id, and ts equal to the last row's time. -/
theorem c7_latest_flatten_witness :
    lookupKV (latestMerge "m365-01" c7rows) "u_batt_v" = some (.num (.fin 39)) ∧
    lookupKV (latestMerge "m365-01" c7rows) "ts" = some (.str "2025-09-26T12:00:05Z") ∧
    lookupKV (latestMerge "m365-01" c7rows) "device_id" = some (.str "m365-01") := by
  have h := c7_latest_flatten "m365-01" c7rows (by decide) (by decide) (by decide)
  refine ⟨?_, ?_, h.2.2.1⟩
  · exact h.1 ⟨"u_batt_v", .num (.fin 39), "2025-09-26T12:00:00Z"⟩ (List.mem_cons_self _ _)
  · exact h.2.1 ⟨"speed_kmh", .num (.fin 12), "2025-09-26T12:00:05Z"⟩
      [⟨"u_batt_v", .num (.fin 39), "2025-09-26T12:00:00Z"⟩] rfl

instance : IsTotal StoreRow (fun a b => a.time ≤ b.time) :=
  ⟨fun a b => Int.le_total a.time b.time⟩

instance : IsTrans StoreRow (fun a b => a.time ≤ b.time) :=
  ⟨fun _ _ _ hab hbc => le_trans hab hbc⟩

/-- Every member of a per-field table belongs to the filtered stream and
carries that table's field. -/
theorem mem_seriesBlock {filtered : List StoreRow} {f : String} {r : StoreRow}
    (h : r ∈ seriesBlock filtered f) : r ∈ filtered ∧ r.fieldName = f := by
  have h2 := (List.mem_insertionSort _).mp h
  have h3 := List.mem_filter.mp h2
  exact ⟨h3.1, of_decide_eq_true h3.2⟩

/-- A table of a different field contributes nothing to the rows of field
f. -/
theorem seriesBlock_filter_ne {filtered : List StoreRow} {f f2 : String} (hne : f2 ≠ f) :
    (seriesBlock filtered f2).filter (fun r => r.fieldName = f) = [] := by
  rw [List.filter_eq_nil_iff]
  intro r hr
  have h2 := (mem_seriesBlock hr).2
  simp [h2, hne]

/-- A table of field f consists entirely of rows of field f. -/
theorem seriesBlock_filter_self (filtered : List StoreRow) (f : String) :
    (seriesBlock filtered f).filter (fun r => r.fieldName = f) = seriesBlock filtered f := by
  rw [List.filter_eq_self]
  intro r hr
  simp [(mem_seriesBlock hr).2]

/-- Concatenated tables of fields other than f hold no rows of field f. -/
theorem filter_flatten_blocks_nil (filtered : List StoreRow) (f : String) :
    ∀ F : List String, f ∉ F →
      ((F.map (seriesBlock filtered)).flatten).filter (fun r => r.fieldName = f) = [] := by
  intro F
  induction F with
  | nil => intro _; rfl
  | cons f2 F2 ih =>
    intro hf
    rw [List.map_cons, List.flatten_cons, List.filter_append]
    have h1 : f2 ≠ f := fun he => hf (by rw [← he]; exact List.mem_cons_self _ _)
    rw [seriesBlock_filter_ne h1, ih (fun hm => hf (List.mem_cons_of_mem _ hm))]
    rfl

/-- Within the concatenation of distinct per-field tables, the rows of any
one field are non-decreasing in time. -/
theorem filter_flatten_blocks_sorted (filtered : List StoreRow) (f : String) :
    ∀ F : List String, F.Nodup →
      List.Sorted (fun a b : StoreRow => a.time ≤ b.time)
        (((F.map (seriesBlock filtered)).flatten).filter (fun r => r.fieldName = f)) := by
  intro F
  induction F with
  | nil => intro _; exact List.sorted_nil
  | cons f2 F2 ih =>
    intro hnd
    rw [List.map_cons, List.flatten_cons, List.filter_append]
    by_cases he : f2 = f
    · subst he
      rw [seriesBlock_filter_self,
        filter_flatten_blocks_nil filtered f2 F2 (List.nodup_cons.mp hnd).1, List.append_nil]
      exact List.sorted_insertionSort _ _
    · rw [seriesBlock_filter_ne he, List.nil_append]
      exact ih (List.nodup_cons.mp hnd).2

/-- A row is in the flux result exactly when it survives the filter stage. -/
theorem mem_fluxSeries {bucket : List StoreRow} {deviceId : String} {fields : List String}
    {cutoff : Int} {r : StoreRow} :
    r ∈ fluxSeries bucket deviceId fields cutoff ↔
      r ∈ fluxSeriesFilter bucket deviceId fields cutoff := by
  constructor
  · intro h
    simp only [fluxSeries] at h
    obtain ⟨b, hb, hrb⟩ := List.mem_flatten.mp h
    obtain ⟨f2, hf2, rfl⟩ := List.mem_map.mp hb
    exact (mem_seriesBlock hrb).1
  · intro h
    simp only [fluxSeries]
    apply List.mem_flatten.mpr
    refine ⟨seriesBlock (fluxSeriesFilter bucket deviceId fields cutoff) r.fieldName, ?_, ?_⟩
    · apply List.mem_map_of_mem
      simp only [seriesTables]
      rw [List.mem_insertionSort, List.mem_dedup]
      exact List.mem_map_of_mem StoreRow.fieldName h
    · simp only [seriesBlock]
      rw [List.mem_insertionSort]
      exact List.mem_filter.mpr ⟨h, by simp⟩

/-- The table list of the flux result has pairwise-distinct fields. -/
theorem seriesTables_nodup (filtered : List StoreRow) : (seriesTables filtered).Nodup :=
  ((List.perm_insertionSort _ _).nodup_iff).mpr (List.nodup_dedup _)

/-- A bucket with two u_batt_v samples surrounding a speed_kmh sample in
time, all for the requested device, all within the window. -/
def c8cxBucket : List StoreRow :=
  [⟨"scooter", "m365-01", "u_batt_v", 39, 5⟩,
   ⟨"scooter", "m365-01", "speed_kmh", 12, 10⟩,
   ⟨"scooter", "m365-01", "u_batt_v", 38, 15⟩]

/-- C8 counterexample: the query's keep stage reduces the group key to the
_field column, so sort orders each per-field table only and collectRows
concatenates the tables (ascending by field name). For this bucket the
default-field request returns the speed_kmh block (time 10) before the
u_batt_v block (times 5, 15): only requested fields, but not ordered
non-decreasing by _time — refuting the ordering conjunct of the claim as
stated. -/
theorem c8_series_counterexample :
    apiSeries c8cxBucket "m365-01" ⟨none, none⟩ 0 =
      .ok [⟨"scooter", "m365-01", "speed_kmh", 12, 10⟩,
           ⟨"scooter", "m365-01", "u_batt_v", 39, 5⟩,
           ⟨"scooter", "m365-01", "u_batt_v", 38, 15⟩] ∧
    ¬ List.Sorted (fun a b : StoreRow => a.time ≤ b.time)
      [⟨"scooter", "m365-01", "speed_kmh", 12, 10⟩,
       ⟨"scooter", "m365-01", "u_batt_v", 39, 5⟩,
       ⟨"scooter", "m365-01", "u_batt_v", 38, 15⟩] := by
  constructor
  · rfl
  · intro h
    have h2 := List.rel_of_sorted_cons h _ (List.mem_cons_self _ _)
    exact absurd h2 (by decide)

/-- C8 (amended): for every series request that the store answers, the field
list defaults to u_batt_v, i_batt_a, speed_kmh and the range to 60m when the
respective parameter is absent; the response holds exactly the rows of the
requested fields for the device within the window; and the rows of each
single field are ordered non-decreasing by _time — the response is a
concatenation of per-field blocks, not one globally time-ordered list. -/
theorem c8_series_per_field (bucket : List StoreRow) (deviceId : String) (req : SeriesReq)
    (cutoff : Int) (rows : List StoreRow)
    (hok : apiSeries bucket deviceId req cutoff = .ok rows) :
    (req.fields = none → seriesFieldsUsed req = ["u_batt_v", "i_batt_a", "speed_kmh"]) ∧
    (req.range = none → seriesRangeUsed req = "60m") ∧
    (∀ r ∈ rows, r.fieldName ∈ seriesFieldsUsed req) ∧
    (∀ r : StoreRow, r ∈ rows ↔
      (r ∈ bucket ∧ r.meas = "scooter" ∧ r.device = deviceId ∧
        r.fieldName ∈ seriesFieldsUsed req ∧ cutoff ≤ r.time)) ∧
    (∀ f : String, List.Sorted (fun a b : StoreRow => a.time ≤ b.time)
      (rows.filter (fun r => r.fieldName = f))) := by
  obtain ⟨rr, rf⟩ := req
  simp only [apiSeries] at hok
  split at hok
  · simp at hok
  · injection hok with hrows
    subst hrows
    refine ⟨?_, ?_, ?_, ?_, ?_⟩
    · intro hf
      cases hf
      rfl
    · intro hr
      cases hr
      rfl
    · intro r hr
      have h2 := List.mem_filter.mp (mem_fluxSeries.mp hr)
      exact (of_decide_eq_true h2.2).2.2.1
    · intro r
      rw [mem_fluxSeries]
      simp only [fluxSeriesFilter, List.mem_filter]
      constructor
      · rintro ⟨h1, h2⟩
        have h3 := of_decide_eq_true h2
        exact ⟨h1, h3.1, h3.2.1, h3.2.2.1, h3.2.2.2⟩
      · rintro ⟨h1, h2, h3, h4, h5⟩
        exact ⟨h1, decide_eq_true ⟨h2, h3, h4, h5⟩⟩
    · intro f
      simp only [fluxSeries]
      exact filter_flatten_blocks_sorted _ f _ (seriesTables_nodup _)

/-- C8 amended witness: on the counterexample bucket with both parameters
absent the defaults are used, and the u_batt_v rows of the (globally
unsorted) response are themselves in time order. -/
theorem c8_series_per_field_witness :
    seriesFieldsUsed ⟨none, none⟩ = ["u_batt_v", "i_batt_a", "speed_kmh"] ∧
    seriesRangeUsed ⟨none, none⟩ = "60m" ∧
    List.Sorted (fun a b : StoreRow => a.time ≤ b.time)
      ((fluxSeries c8cxBucket "m365-01" ["u_batt_v", "i_batt_a", "speed_kmh"] 0).filter
        (fun r => r.fieldName = "u_batt_v")) := by
  have h := c8_series_per_field c8cxBucket "m365-01" ⟨none, none⟩ 0
    (fluxSeries c8cxBucket "m365-01" ["u_batt_v", "i_batt_a", "speed_kmh"] 0) (by rfl)
  exact ⟨h.1 rfl, h.2.1 rfl, h.2.2.2.2 "u_batt_v"⟩
